import Mathlib

/-!
Shallow embedding of the commission-event workflow of the `mapuri/cluster`
management layer (`management/src/clusterm/manager/commission_event.go`).

Source functions (`process`, `eventValidate`, `prepareInventory`,
`configureOrCleanupOnErrorRunner`, `errActiveJob`, and the completion
callback closure inside `process`) are translated directly from the Go file.
Collaborators that live outside the file (the active-job gate, the asset
tracker, the validation routine, the configuration engine and the output
streamer) are modelled from the spec, as marked on each definition.
Go map iteration is represented by explicit association lists; a Go panic by
an `Option` result (`none` = panic); fallible calls by `Except`.
-/

namespace Cluster

/-- Asset/allocation lifecycle status of a node (spec §3 AssetStatus). -/
inductive AssetStatus
  | unallocated
  | provisioning
  | commissioned
  | errored
deriving DecidableEq, Repr

/-- Status of the process-wide active job (spec §3 Job). -/
inductive JobStatus
  | idle
  | active
  | errored
  | completed
deriving DecidableEq, Repr

/-- Association-list lookup by string key (models Go map indexing). -/
def lookupAssoc {β : Type} : List (String × β) → String → Option β
  | [], _ => none
  | (k, v) :: rest, key => if k = key then some v else lookupAssoc rest key

/-- Association-list update by string key (models Go map assignment):
replaces the first binding of the key, or appends a new binding. -/
def setAssoc {β : Type} : List (String × β) → String → β → List (String × β)
  | [], key, v => [(key, v)]
  | (k, w) :: rest, key, v =>
    if k = key then (key, v) :: rest else (k, w) :: setAssoc rest key v

/-- `configuration.AnsibleHost`: per-node configuration payload handed to the
configuration engine (tag, group assignment, host variables). -/
structure AnsibleHost where
  tag : String
  group : String
  hostVars : List (String × String)
deriving DecidableEq, Repr

/-- `AnsibleHost.SetGroup`. -/
def AnsibleHost.setGroup (h : AnsibleHost) (g : String) : AnsibleHost :=
  { h with group := g }

/-- `AnsibleHost.SetVar`. -/
def AnsibleHost.setVar (h : AnsibleHost) (k v : String) : AnsibleHost :=
  { h with hostVars := setAssoc h.hostVars k v }

/-- `AnsibleHost.GetTag`. -/
def AnsibleHost.getTag (h : AnsibleHost) : String := h.tag

/-- A node's configuration record behind the generic config interface.
`node.Cfg` in the Go code has an interface type; the commission workflow
recovers the concrete `*configuration.AnsibleHost` by a dynamic type
assertion.  `other` stands for any non-AnsibleHost implementation. -/
inductive NodeCfg
  | ansible (h : AnsibleHost)
  | other (tag : String)
deriving DecidableEq, Repr

/-- `Cfg.GetTag()`: the tag accessor of the config interface. -/
def NodeCfg.getTag : NodeCfg → String
  | .ansible h => h.tag
  | .other t => t

/-- A node known to the manager: monitoring info (management address) and a
configuration record. -/
structure ClusterNode where
  monMgmtAddress : String
  cfg : NodeCfg
deriving DecidableEq, Repr

/-- The manager's read surface used by `prepareInventory`: the node registry
(as an association list fixing one iteration order of the Go map) and the two
node-state predicates, which can fail. Modelled from the spec: the predicate
implementations (`isDiscoveredAndAllocatedNode`, `isMasterNode`) live outside
the source file; the spec says they query node state and may return errors. -/
structure Manager where
  nodes : List (String × ClusterNode)
  isDiscoveredAndAllocatedNode : String → Except String Bool
  isMasterNode : String → Except String Bool

/-- Modelled from the spec: the fixed host-group names
(`ansibleMasterGroupName` constant, defined outside the source file). -/
def ansibleMasterGroupName : String := "service-master"

/-- Modelled from the spec: the fixed host-group names
(`ansibleWorkerGroupName` constant, defined outside the source file). -/
def ansibleWorkerGroupName : String := "service-worker"

/-- Modelled from the spec: the host-variable name carrying the master node's
management address (`ansibleEtcdMasterAddrHostVar`, defined outside the
source file). -/
def ansibleEtcdMasterAddrHostVar : String := "etcd_master_addr"

/-- Modelled from the spec: the host-variable name carrying the master node's
tag (`ansibleEtcdMasterNameHostVar`, defined outside the source file). -/
def ansibleEtcdMasterNameHostVar : String := "etcd_master_name"

/-- Modelled from the spec: `IsValidHostGroup` — the requested host group must
be one of the recognized groups (master or worker). -/
def IsValidHostGroup (g : String) : Bool :=
  g = ansibleMasterGroupName || g = ansibleWorkerGroupName

/-- The request-scoped commission event (`commissionEvent` struct fields set
by `newCommissionEvent`). -/
structure CommissionEvent where
  nodeNames : List String
  extraVars : String
  hostGroup : String
deriving DecidableEq, Repr

/-- `commissionEvent.String()`: `fmt.Sprintf("commissionEvent: %v", e.nodeNames)`. -/
def commissionEventString (e : CommissionEvent) : String :=
  "commissionEvent: [" ++ String.intercalate " " e.nodeNames ++ "]"

/-- `errActiveJob`: the "already active" conflict error message. -/
def errActiveJob (desc : String) : String :=
  "there is already an active job, please try in sometime. Job: " ++ desc

/-- The master-discovery loop of `prepareInventory` (lines 104–138): walk the
manager's node registry, skipping nodes of the event (`e._enodes`), skipping a
candidate when either predicate errors or returns false, and stopping at the
first node that is discovered-and-allocated and in the master group, yielding
`(masterAddr, masterName, masterCommissioned)`.  The three accumulators start
as `("", "", false)` exactly as in the source. -/
def scanForMaster (mgr : Manager) (enodes : List (String × ClusterNode)) :
    List (String × ClusterNode) → String × String × Bool
  | [] => ("", "", false)
  | (name, nd) :: rest =>
    if (lookupAssoc enodes name).isSome then
      scanForMaster mgr enodes rest
    else
      match mgr.isDiscoveredAndAllocatedNode name with
      | .error _ => scanForMaster mgr enodes rest
      | .ok false => scanForMaster mgr enodes rest
      | .ok true =>
        match mgr.isMasterNode name with
        | .error _ => scanForMaster mgr enodes rest
        | .ok false => scanForMaster mgr enodes rest
        | .ok true => (nd.monMgmtAddress, nd.cfg.getTag, true)

/-- Result of `prepareInventory`: a Go panic (from the unchecked type
assertion `node.Cfg.(*configuration.AnsibleHost)`), an error return, or
success with the built host list. -/
inductive PrepResult
  | panicked
  | err (msg : String)
  | ok (hosts : List AnsibleHost)
deriving DecidableEq, Repr

/-- The host-building loop of `prepareInventory` (lines 145–152): recover
each event node's `AnsibleHost` by type assertion (`none` = panic on a
non-AnsibleHost record), set its group and the two master variables, and
collect the hosts in iteration order. -/
def buildHosts (group addr nm : String) :
    List (String × ClusterNode) → Option (List AnsibleHost)
  | [] => some []
  | (_, nd) :: rest =>
    match nd.cfg with
    | .ansible h =>
      let hostInfo :=
        ((h.setGroup group).setVar ansibleEtcdMasterAddrHostVar addr).setVar
          ansibleEtcdMasterNameHostVar nm
      match buildHosts group addr nm rest with
      | none => none
      | some hs => some (hostInfo :: hs)
    | .other _ => none

/-- The fixed error message of the worker-without-master failure. -/
def workerNoMasterMsg : String :=
  "Cannot commission a worker node without existence of a master node in the cluster, make sure atleast one master node is commissioned."

/-- `prepareInventory` (lines 103–156): find an existing commissioned master,
fail when a worker commission has no master, otherwise build the per-host
inventory.  `enodes` stands for `e._enodes`, the nodes resolved by
validation. -/
def prepareInventory (mgr : Manager) (e : CommissionEvent)
    (enodes : List (String × ClusterNode)) : PrepResult :=
  let nodeGroup := e.hostGroup
  let scan := scanForMaster mgr enodes mgr.nodes
  let masterAddr := scan.1
  let masterName := scan.2.1
  let masterCommissioned := scan.2.2
  if masterCommissioned = false ∧ nodeGroup = ansibleWorkerGroupName then
    .err workerNoMasterMsg
  else
    match buildHosts nodeGroup masterAddr masterName enodes with
    | none => .panicked
    | some hosts => .ok hosts

/-! ### Configuration execution protocol (runner) -/

/-- The configuration engine together with the output streamer, modelled from
the spec: `Configure`/`Cleanup` return a stream, cancel trigger and error
signal, and `logOutputAndReturnStatus` (defined outside the source file)
resolves them to a single final error; the composition is abstracted as one
function per entry point yielding the resolved final error (`none` =
success). -/
structure ConfigEngine where
  configure : List AnsibleHost → String → Option String
  cleanup : List AnsibleHost → String → Option String

/-- Observable outcome of one execution of
`configureOrCleanupOnErrorRunner`: whether/with what arguments the cleanup
entry point was invoked, the cleanup result that is only logged, and the
error the runner returns. -/
structure RunnerTrace where
  cleanupArgs : Option (List AnsibleHost × String)
  cleanupLogged : Option String
  result : Option String
deriving DecidableEq, Repr

/-- `configureOrCleanupOnErrorRunner` (lines 160–174): run the engine's
configure entry point on the prepared hosts; on success return nil; on
failure run the cleanup entry point with the same hosts and extra vars, log
its outcome, and return the original configuration error. -/
def configureOrCleanupOnErrorRunner (eng : ConfigEngine)
    (hosts : List AnsibleHost) (extraVars : String) : RunnerTrace :=
  match eng.configure hosts extraVars with
  | none => { cleanupArgs := none, cleanupLogged := none, result := none }
  | some cfgErr =>
    { cleanupArgs := some (hosts, extraVars)
      cleanupLogged := eng.cleanup hosts extraVars
      result := some cfgErr }

/-! ### Asset status operations and the completion callback -/

/-- Modelled from the spec: the best-effort batch status transition
(`setAssetsStatusBestEffort`, defined outside the source file) applies the
per-node transition to each name, logging individual failures without
aborting the batch and without propagating an error.  `canSet` abstracts
which per-node transitions succeed. -/
def setAssetsStatusBestEffort (canSet : String → Bool)
    (assets : List (String × AssetStatus)) (names : List String)
    (target : AssetStatus) : List (String × AssetStatus) :=
  names.foldl (fun a n => if canSet n then setAssoc a n target else a) assets

/-- The completion callback closure registered by `process` with
`checkAndSetActiveJob` (lines 47–56): on `Errored` job status, best-effort
set all target nodes Unallocated; otherwise best-effort set them
Commissioned. -/
def commissionCompletionCallback (canSet : String → Bool)
    (nodeNames : List String) (status : JobStatus)
    (assets : List (String × AssetStatus)) : List (String × AssetStatus) :=
  if status = JobStatus.errored then
    setAssetsStatusBestEffort canSet assets nodeNames AssetStatus.unallocated
  else
    setAssetsStatusBestEffort canSet assets nodeNames AssetStatus.commissioned

/-- Modelled from the spec: the atomic all-or-nothing Provisioning
transition (`setAssetsStatusAtomic` with `SetAssetProvisioning`, defined
outside the source file) — every named node must currently be Unallocated;
then all are set Provisioning; otherwise the whole batch fails and no status
changes. -/
def setAssetsStatusAtomicProvisioning (assets : List (String × AssetStatus))
    (names : List String) : Except String (List (String × AssetStatus)) :=
  if names.all (fun n => lookupAssoc assets n = some AssetStatus.unallocated) then
    .ok (names.foldl (fun a n => setAssoc a n AssetStatus.provisioning) assets)
  else
    .error "a node is not in the expected status"

/-! ### The process() state machine -/

/-- The manager's mutable state visible to `process`: the active-job gate
(holding the active job's description when occupied) and the asset statuses. -/
structure MgrState where
  activeJob : Option String
  assets : List (String × AssetStatus)
deriving DecidableEq, Repr

/-- Modelled from the spec: `checkAndSetActiveJob` — atomically test-and-set
the active-job gate; if a job is active, fail with the "already active" error
carrying the conflicting job's description and mutate nothing; otherwise
record the new job. -/
def checkAndSetActiveJob (s : MgrState) (desc : String) :
    Except String MgrState :=
  match s.activeJob with
  | some d => .error (errActiveJob d)
  | none => .ok { s with activeJob := some desc }

/-- Modelled from the spec: `resetActiveJob` clears the active job. -/
def resetActiveJob (s : MgrState) : MgrState := { s with activeJob := none }

/-- Steps of `process` visible in its execution trace, in the order they are
performed. -/
inductive ProcEvent
  | gateAcquired
  | validated
  | inventoryPrepared
  | provisioningSet
  | taskLaunched
  | gateReset
deriving DecidableEq, Repr

/-- The error taxonomy of `process` (spec §7), tagged by the step that
produced the error. -/
inductive ProcError
  | conflict (msg : String)
  | validation (msg : String)
  | topology (msg : String)
  | statusTransition (msg : String)
deriving DecidableEq, Repr

/-- Collaborators of `process`: the manager's query surface used by
`prepareInventory`, and the shared validation routine.  Modelled from the
spec: `commonEventValidate` (defined outside the source file) resolves the
requested node names to node objects or fails with a descriptive error. -/
structure ProcEnv where
  mgr : Manager
  commonEventValidate : List String → Except String (List (String × ClusterNode))

/-- `eventValidate` (lines 88–96): the host group must be recognized, then
the node names are resolved by the shared validation routine. -/
def eventValidate (env : ProcEnv) (e : CommissionEvent) :
    Except String (List (String × ClusterNode)) :=
  if IsValidHostGroup e.hostGroup = false then
    .error ("invalid or empty host-group specified: " ++ e.hostGroup)
  else
    env.commonEventValidate e.nodeNames

/-- `process` (lines 41–86): acquire the gate (registering the runner and
the completion callback), validate, prepare inventory, atomically set
Provisioning, then launch the background job and return nil; any error after
gate acquisition runs the deferred `resetActiveJob` before returning the
error unchanged.  The result carries the trace of performed steps, the final
manager state, and the returned error (`none` = nil); the overall `Option`
is `none` when `prepareInventory` panics (the panic propagates out of
`process`). -/
def process (env : ProcEnv) (e : CommissionEvent) (s : MgrState) :
    Option (List ProcEvent × MgrState × Option ProcError) :=
  match checkAndSetActiveJob s (commissionEventString e) with
  | .error msg => some ([], s, some (.conflict msg))
  | .ok s1 =>
    match eventValidate env e with
    | .error msg =>
      some ([.gateAcquired, .gateReset], resetActiveJob s1, some (.validation msg))
    | .ok enodes =>
      match prepareInventory env.mgr e enodes with
      | .panicked => none
      | .err msg =>
        some ([.gateAcquired, .validated, .gateReset], resetActiveJob s1,
          some (.topology msg))
      | .ok _hosts =>
        match setAssetsStatusAtomicProvisioning s1.assets e.nodeNames with
        | .error msg =>
          some ([.gateAcquired, .validated, .inventoryPrepared, .gateReset],
            resetActiveJob s1, some (.statusTransition msg))
        | .ok assets1 =>
          some ([.gateAcquired, .validated, .inventoryPrepared,
              .provisioningSet, .taskLaunched],
            { s1 with assets := assets1 }, none)

/-! ### Concrete instances exercised by the witnesses -/

/-- The already-commissioned master of the spec's worked scenario. -/
def masterHostEx : AnsibleHost := { tag := "master-1", group := "", hostVars := [] }

def n1HostEx : AnsibleHost := { tag := "n1", group := "", hostVars := [] }

def n2HostEx : AnsibleHost := { tag := "n2", group := "", hostVars := [] }

/-- A manager whose registry holds one commissioned master `m1` at
`10.0.0.5` tagged `master-1`. -/
def mgrEx : Manager where
  nodes := [("m1", { monMgmtAddress := "10.0.0.5", cfg := NodeCfg.ansible masterHostEx })]
  isDiscoveredAndAllocatedNode := fun n => Except.ok (n == "m1")
  isMasterNode := fun n => Except.ok (n == "m1")

/-- A manager with an empty registry (no master anywhere). -/
def mgrEmpty : Manager where
  nodes := []
  isDiscoveredAndAllocatedNode := fun _ => Except.ok false
  isMasterNode := fun _ => Except.ok false

/-- The resolved nodes `n1`, `n2` of the spec's worked scenario. -/
def enodesEx : List (String × ClusterNode) :=
  [("n1", { monMgmtAddress := "10.0.0.1", cfg := NodeCfg.ansible n1HostEx }),
   ("n2", { monMgmtAddress := "10.0.0.2", cfg := NodeCfg.ansible n2HostEx })]

/-- Commission request for `n1`, `n2` as workers. -/
def eventEx : CommissionEvent :=
  { nodeNames := ["n1", "n2"], extraVars := "", hostGroup := ansibleWorkerGroupName }

/-- Expected host config for `n1` in the worked scenario. -/
def workerHost1Ex : AnsibleHost :=
  { tag := "n1", group := ansibleWorkerGroupName,
    hostVars := [(ansibleEtcdMasterAddrHostVar, "10.0.0.5"),
                 (ansibleEtcdMasterNameHostVar, "master-1")] }

/-- Expected host config for `n2` in the worked scenario. -/
def workerHost2Ex : AnsibleHost :=
  { tag := "n2", group := ansibleWorkerGroupName,
    hostVars := [(ansibleEtcdMasterAddrHostVar, "10.0.0.5"),
                 (ansibleEtcdMasterNameHostVar, "master-1")] }

def hostsEx : List AnsibleHost := [workerHost1Ex, workerHost2Ex]

def envEx : ProcEnv where
  mgr := mgrEx
  commonEventValidate := fun _ => Except.ok enodesEx

def envNoMasterEx : ProcEnv where
  mgr := mgrEmpty
  commonEventValidate := fun _ => Except.ok enodesEx

def sBusyEx : MgrState :=
  { activeJob := some "commissionEvent: [n3]",
    assets := [("n1", AssetStatus.unallocated), ("n2", AssetStatus.unallocated)] }

def sIdleEx : MgrState :=
  { activeJob := none,
    assets := [("n1", AssetStatus.unallocated), ("n2", AssetStatus.unallocated)] }

/-- Commission request for `n1` as the first master. -/
def eventMEx : CommissionEvent :=
  { nodeNames := ["n1"], extraVars := "", hostGroup := ansibleMasterGroupName }

def enodesMEx : List (String × ClusterNode) :=
  [("n1", { monMgmtAddress := "10.0.0.1", cfg := NodeCfg.ansible n1HostEx })]

def envMEx : ProcEnv where
  mgr := mgrEmpty
  commonEventValidate := fun _ => Except.ok enodesMEx

def sM1Ex : MgrState := { activeJob := none, assets := [("n1", AssetStatus.unallocated)] }

/-- Expected host config for the first master `n1`: the master variables are
present with empty values. -/
def masterHostResEx : AnsibleHost :=
  { tag := "n1", group := ansibleMasterGroupName,
    hostVars := [(ansibleEtcdMasterAddrHostVar, ""),
                 (ansibleEtcdMasterNameHostVar, "")] }

/-- A node whose configuration record is not an `AnsibleHost`. -/
def badNodeEx : ClusterNode := { monMgmtAddress := "10.0.0.9", cfg := NodeCfg.other "b1" }

def enodesBadEx : List (String × ClusterNode) := [("b1", badNodeEx)]

def eventBadEx : CommissionEvent :=
  { nodeNames := ["b1"], extraVars := "", hostGroup := ansibleMasterGroupName }

/-- An engine whose configure run and cleanup run both fail. -/
def engFailEx : ConfigEngine where
  configure := fun _ _ => some "ansible exited 2"
  cleanup := fun _ _ => some "cleanup exited 1"

/-- A per-node transition oracle that fails exactly for `n2`. -/
def canSetEx : String → Bool := fun n => n != "n2"

/-! ### Helper lemmas -/

theorem lookupAssoc_setAssoc_self {β : Type} (l : List (String × β))
    (k : String) (v : β) : lookupAssoc (setAssoc l k v) k = some v := by
  induction l with
  | nil => simp [setAssoc, lookupAssoc]
  | cons p rest ih =>
    obtain ⟨a, w⟩ := p
    by_cases ha : a = k
    · simp [setAssoc, lookupAssoc, ha]
    · simp [setAssoc, lookupAssoc, ha, ih]

theorem lookupAssoc_setAssoc_ne {β : Type} (l : List (String × β))
    (k k' : String) (v : β) (h : k' ≠ k) :
    lookupAssoc (setAssoc l k v) k' = lookupAssoc l k' := by
  induction l with
  | nil =>
    have hne : ¬(k = k') := fun hh => h hh.symm
    simp [setAssoc, lookupAssoc, hne]
  | cons p rest ih =>
    obtain ⟨a, w⟩ := p
    by_cases ha : a = k
    · subst ha
      have hne : ¬(a = k') := fun hh => h hh.symm
      simp [setAssoc, lookupAssoc, hne]
    · simp [setAssoc, lookupAssoc, ha, ih]

/-- The two predicates of the master scan as a single boolean match, the way
the spec phrases them: the candidate is not part of the event, is discovered
and allocated, and is in the master group; a predicate error counts as a
non-match. -/
def masterMatch (mgr : Manager) (enodes : List (String × ClusterNode))
    (p : String × ClusterNode) : Bool :=
  !(lookupAssoc enodes p.1).isSome &&
    (match mgr.isDiscoveredAndAllocatedNode p.1 with
     | .ok true => true
     | _ => false) &&
    (match mgr.isMasterNode p.1 with
     | .ok true => true
     | _ => false)

theorem scanForMaster_eq_find (mgr : Manager)
    (enodes : List (String × ClusterNode)) (l : List (String × ClusterNode)) :
    scanForMaster mgr enodes l =
      match l.find? (masterMatch mgr enodes) with
      | none => ("", "", false)
      | some p => (p.2.monMgmtAddress, p.2.cfg.getTag, true) := by
  induction l with
  | nil => simp [scanForMaster]
  | cons p rest ih =>
    obtain ⟨name, nd⟩ := p
    cases hsk : (lookupAssoc enodes name).isSome with
    | true =>
      have hm : masterMatch mgr enodes (name, nd) = false := by
        simp [masterMatch, hsk]
      rw [List.find?_cons_of_neg _ (by simp [hm])]
      simpa [scanForMaster, hsk] using ih
    | false =>
      cases hda : mgr.isDiscoveredAndAllocatedNode name with
      | error msg =>
        have hm : masterMatch mgr enodes (name, nd) = false := by
          simp [masterMatch, hsk, hda]
        rw [List.find?_cons_of_neg _ (by simp [hm])]
        simpa [scanForMaster, hsk, hda] using ih
      | ok b =>
        cases b with
        | false =>
          have hm : masterMatch mgr enodes (name, nd) = false := by
            simp [masterMatch, hsk, hda]
          rw [List.find?_cons_of_neg _ (by simp [hm])]
          simpa [scanForMaster, hsk, hda] using ih
        | true =>
          cases hmn : mgr.isMasterNode name with
          | error msg =>
            have hm : masterMatch mgr enodes (name, nd) = false := by
              simp [masterMatch, hsk, hda, hmn]
            rw [List.find?_cons_of_neg _ (by simp [hm])]
            simpa [scanForMaster, hsk, hda, hmn] using ih
          | ok c =>
            cases c with
            | false =>
              have hm : masterMatch mgr enodes (name, nd) = false := by
                simp [masterMatch, hsk, hda, hmn]
              rw [List.find?_cons_of_neg _ (by simp [hm])]
              simpa [scanForMaster, hsk, hda, hmn] using ih
            | true =>
              have hm : masterMatch mgr enodes (name, nd) = true := by
                simp [masterMatch, hsk, hda, hmn]
              rw [List.find?_cons_of_pos _ hm]
              simp [scanForMaster, hsk, hda, hmn]

theorem scanForMaster_not_found (mgr : Manager)
    (enodes : List (String × ClusterNode)) (l : List (String × ClusterNode))
    (h : (scanForMaster mgr enodes l).2.2 = false) :
    scanForMaster mgr enodes l = ("", "", false) := by
  rw [scanForMaster_eq_find] at h ⊢
  cases hf : l.find? (masterMatch mgr enodes) <;> simp [hf] at h ⊢

theorem buildHosts_mem (g a n : String) (enodes : List (String × ClusterNode))
    (hs : List AnsibleHost) (hbh : buildHosts g a n enodes = some hs) :
    ∀ h ∈ hs, h.group = g ∧
      lookupAssoc h.hostVars ansibleEtcdMasterAddrHostVar = some a ∧
      lookupAssoc h.hostVars ansibleEtcdMasterNameHostVar = some n := by
  induction enodes generalizing hs with
  | nil =>
    simp [buildHosts] at hbh
    subst hbh
    intro h hh
    simp at hh
  | cons p rest ih =>
    obtain ⟨nm, nd⟩ := p
    cases hc : nd.cfg with
    | other t => simp [buildHosts, hc] at hbh
    | ansible ah =>
      simp only [buildHosts, hc] at hbh
      cases hr : buildHosts g a n rest with
      | none => simp [hr] at hbh
      | some hs0 =>
        simp only [hr] at hbh
        injection hbh with hbh
        subst hbh
        intro h hh
        rcases List.mem_cons.mp hh with heq | hmem
        · subst heq
          refine ⟨rfl, ?_, ?_⟩
          · show lookupAssoc
              (setAssoc (setAssoc ah.hostVars ansibleEtcdMasterAddrHostVar a)
                ansibleEtcdMasterNameHostVar n) ansibleEtcdMasterAddrHostVar = some a
            rw [lookupAssoc_setAssoc_ne _ _ _ _ (by decide)]
            exact lookupAssoc_setAssoc_self _ _ _
          · exact lookupAssoc_setAssoc_self _ _ _
        · exact ih hs0 hr h hmem

theorem buildHosts_isSome_of_ansible (g a n : String)
    (enodes : List (String × ClusterNode))
    (hall : ∀ p ∈ enodes, ∃ ah, p.2.cfg = NodeCfg.ansible ah) :
    ∃ hs, buildHosts g a n enodes = some hs := by
  induction enodes with
  | nil => exact ⟨[], rfl⟩
  | cons p rest ih =>
    obtain ⟨nm, nd⟩ := p
    obtain ⟨ah, hah⟩ := hall (nm, nd) (List.mem_cons_self _ _)
    obtain ⟨hs, hhs⟩ := ih (fun q hq => hall q (List.mem_cons_of_mem _ hq))
    have hnd : nd.cfg = NodeCfg.ansible ah := hah
    refine ⟨((ah.setGroup g).setVar ansibleEtcdMasterAddrHostVar a).setVar
      ansibleEtcdMasterNameHostVar n :: hs, ?_⟩
    simp [buildHosts, hnd, hhs]

theorem buildHosts_none_of_bad (g a n : String)
    (enodes : List (String × ClusterNode))
    (hbad : ∃ p ∈ enodes, ∀ ah, p.2.cfg ≠ NodeCfg.ansible ah) :
    buildHosts g a n enodes = none := by
  induction enodes with
  | nil => simp at hbad
  | cons q rest ih =>
    obtain ⟨p, hp, hnp⟩ := hbad
    obtain ⟨nm, nd⟩ := q
    rcases List.mem_cons.mp hp with heq | hmem
    · subst heq
      cases hc : nd.cfg with
      | ansible ah => exact absurd hc (hnp ah)
      | other t => simp [buildHosts, hc]
    · cases hc : nd.cfg with
      | other t => simp [buildHosts, hc]
      | ansible ah => simp [buildHosts, hc, ih ⟨p, hmem, hnp⟩]

theorem prepareInventory_ok_iff (mgr : Manager) (e : CommissionEvent)
    (enodes : List (String × ClusterNode)) (hosts : List AnsibleHost) :
    prepareInventory mgr e enodes = PrepResult.ok hosts ↔
      ¬((scanForMaster mgr enodes mgr.nodes).2.2 = false ∧
          e.hostGroup = ansibleWorkerGroupName) ∧
      buildHosts e.hostGroup (scanForMaster mgr enodes mgr.nodes).1
        (scanForMaster mgr enodes mgr.nodes).2.1 enodes = some hosts := by
  by_cases hcond : (scanForMaster mgr enodes mgr.nodes).2.2 = false ∧
      e.hostGroup = ansibleWorkerGroupName
  · constructor
    · intro hok
      simp only [prepareInventory, if_pos hcond] at hok
      exact PrepResult.noConfusion hok
    · rintro ⟨hn, -⟩
      exact absurd hcond hn
  · cases hb : buildHosts e.hostGroup (scanForMaster mgr enodes mgr.nodes).1
        (scanForMaster mgr enodes mgr.nodes).2.1 enodes with
    | none =>
      constructor
      · intro hok
        simp only [prepareInventory, if_neg hcond, hb] at hok
        exact PrepResult.noConfusion hok
      · rintro ⟨-, hsome⟩
        exact Option.noConfusion hsome
    | some hs =>
      constructor
      · intro hok
        simp only [prepareInventory, if_neg hcond, hb] at hok
        injection hok with hh
        exact ⟨hcond, by rw [hh]⟩
      · rintro ⟨-, hsome⟩
        injection hsome with hh
        simp only [prepareInventory, if_neg hcond, hb, hh]

theorem setAssetsStatusBestEffort_cons (canSet : String → Bool)
    (assets : List (String × AssetStatus)) (m : String) (rest : List String)
    (target : AssetStatus) :
    setAssetsStatusBestEffort canSet assets (m :: rest) target =
      setAssetsStatusBestEffort canSet
        (if canSet m then setAssoc assets m target else assets) rest target := rfl

theorem setAssetsStatusBestEffort_preserve (canSet : String → Bool)
    (names : List String) (target : AssetStatus)
    (assets : List (String × AssetStatus)) (n : String)
    (h : lookupAssoc assets n = some target) :
    lookupAssoc (setAssetsStatusBestEffort canSet assets names target) n =
      some target := by
  induction names generalizing assets with
  | nil => simpa [setAssetsStatusBestEffort] using h
  | cons m rest ih =>
    rw [setAssetsStatusBestEffort_cons]
    cases hm : canSet m with
    | false => rw [if_neg (by simp [hm])]; exact ih _ h
    | true =>
      rw [if_pos (by simp [hm])]
      apply ih
      by_cases hmn : m = n
      · subst hmn; exact lookupAssoc_setAssoc_self _ _ _
      · rw [lookupAssoc_setAssoc_ne _ _ _ _ (fun hh => hmn hh.symm)]; exact h

theorem setAssetsStatusBestEffort_sets (canSet : String → Bool)
    (names : List String) (target : AssetStatus)
    (assets : List (String × AssetStatus)) (n : String)
    (hmem : n ∈ names) (hcan : canSet n = true) :
    lookupAssoc (setAssetsStatusBestEffort canSet assets names target) n =
      some target := by
  induction names generalizing assets with
  | nil => cases hmem
  | cons m rest ih =>
    rw [setAssetsStatusBestEffort_cons]
    rcases List.mem_cons.mp hmem with heq | hmem'
    · subst heq
      rw [if_pos (by simp [hcan])]
      exact setAssetsStatusBestEffort_preserve _ _ _ _ _
        (lookupAssoc_setAssoc_self _ _ _)
    · cases hm : canSet m with
      | false => rw [if_neg (by simp [hm])]; exact ih _ hmem'
      | true => rw [if_pos (by simp [hm])]; exact ih _ hmem'

theorem setAssetsStatusBestEffort_skip (canSet : String → Bool)
    (names : List String) (target : AssetStatus)
    (assets : List (String × AssetStatus)) (n : String)
    (hcan : canSet n = false) :
    lookupAssoc (setAssetsStatusBestEffort canSet assets names target) n =
      lookupAssoc assets n := by
  induction names generalizing assets with
  | nil => rfl
  | cons m rest ih =>
    rw [setAssetsStatusBestEffort_cons]
    cases hm : canSet m with
    | false => rw [if_neg (by simp [hm])]; exact ih _
    | true =>
      rw [if_pos (by simp [hm]), ih]
      apply lookupAssoc_setAssoc_ne
      intro hh
      subst hh
      rw [hm] at hcan
      cases hcan

theorem process_run_cases (env : ProcEnv) (e : CommissionEvent) (s : MgrState)
    (hfree : s.activeJob = none) :
    (∃ m, eventValidate env e = Except.error m ∧
      process env e s = some ([ProcEvent.gateAcquired, ProcEvent.gateReset],
        { activeJob := none, assets := s.assets }, some (ProcError.validation m))) ∨
    (∃ enodes m, eventValidate env e = Except.ok enodes ∧
      prepareInventory env.mgr e enodes = PrepResult.err m ∧
      process env e s = some
        ([ProcEvent.gateAcquired, ProcEvent.validated, ProcEvent.gateReset],
        { activeJob := none, assets := s.assets }, some (ProcError.topology m))) ∨
    (∃ enodes hosts m, eventValidate env e = Except.ok enodes ∧
      prepareInventory env.mgr e enodes = PrepResult.ok hosts ∧
      setAssetsStatusAtomicProvisioning s.assets e.nodeNames = Except.error m ∧
      process env e s = some
        ([ProcEvent.gateAcquired, ProcEvent.validated, ProcEvent.inventoryPrepared,
          ProcEvent.gateReset],
        { activeJob := none, assets := s.assets },
        some (ProcError.statusTransition m))) ∨
    (∃ enodes hosts assets1, eventValidate env e = Except.ok enodes ∧
      prepareInventory env.mgr e enodes = PrepResult.ok hosts ∧
      setAssetsStatusAtomicProvisioning s.assets e.nodeNames = Except.ok assets1 ∧
      process env e s = some
        ([ProcEvent.gateAcquired, ProcEvent.validated, ProcEvent.inventoryPrepared,
          ProcEvent.provisioningSet, ProcEvent.taskLaunched],
        { activeJob := some (commissionEventString e), assets := assets1 }, none)) ∨
    (∃ enodes, eventValidate env e = Except.ok enodes ∧
      prepareInventory env.mgr e enodes = PrepResult.panicked ∧
      process env e s = none) := by
  cases hv : eventValidate env e with
  | error m =>
    exact Or.inl ⟨m, rfl, by simp [process, checkAndSetActiveJob, resetActiveJob, hfree, hv]⟩
  | ok enodes =>
    cases hp : prepareInventory env.mgr e enodes with
    | panicked =>
      refine Or.inr (Or.inr (Or.inr (Or.inr ⟨enodes, rfl, hp, ?_⟩)))
      simp [process, checkAndSetActiveJob, resetActiveJob, hfree, hv, hp]
    | err m =>
      refine Or.inr (Or.inl ⟨enodes, m, rfl, hp, ?_⟩)
      simp [process, checkAndSetActiveJob, resetActiveJob, hfree, hv, hp]
    | ok hosts =>
      cases ha : setAssetsStatusAtomicProvisioning s.assets e.nodeNames with
      | error m =>
        refine Or.inr (Or.inr (Or.inl ⟨enodes, hosts, m, rfl, hp, rfl, ?_⟩))
        simp [process, checkAndSetActiveJob, resetActiveJob, hfree, hv, hp, ha]
      | ok assets1 =>
        refine Or.inr (Or.inr (Or.inr (Or.inl ⟨enodes, hosts, assets1, rfl, hp, rfl, ?_⟩)))
        simp [process, checkAndSetActiveJob, resetActiveJob, hfree, hv, hp, ha]

/-! ### Claim theorems -/

/-- C1: If the engine's Configure invocation fails,
`configureOrCleanupOnErrorRunner` invokes the engine's Cleanup entry point
with the same host set and the same extra parameters, and returns the
original configuration error regardless of cleanup's outcome (the cleanup
result is only logged); if Configure succeeds, the runner returns nil and
Cleanup is never invoked. -/
theorem commission_runner_returns_original_error (eng : ConfigEngine)
    (hosts : List AnsibleHost) (extraVars : String) :
    (∀ cfgErr, eng.configure hosts extraVars = some cfgErr →
      (configureOrCleanupOnErrorRunner eng hosts extraVars).cleanupArgs =
          some (hosts, extraVars) ∧
      (configureOrCleanupOnErrorRunner eng hosts extraVars).result = some cfgErr) ∧
    (eng.configure hosts extraVars = none →
      (configureOrCleanupOnErrorRunner eng hosts extraVars).result = none ∧
      (configureOrCleanupOnErrorRunner eng hosts extraVars).cleanupArgs = none) ∧
    (∀ cl, (configureOrCleanupOnErrorRunner
          { configure := eng.configure, cleanup := cl } hosts extraVars).result =
        (configureOrCleanupOnErrorRunner eng hosts extraVars).result) := by
  cases h : eng.configure hosts extraVars <;>
    simp [configureOrCleanupOnErrorRunner, h]

theorem commission_runner_returns_original_error_witness :
    (configureOrCleanupOnErrorRunner engFailEx hostsEx "e=1").cleanupArgs =
        some (hostsEx, "e=1") ∧
    (configureOrCleanupOnErrorRunner engFailEx hostsEx "e=1").result =
        some "ansible exited 2" :=
  (commission_runner_returns_original_error engFailEx hostsEx "e=1").1
    "ansible exited 2" rfl

/-- C4: while another job is active, `process` returns the "already active"
conflict error from `checkAndSetActiveJob` immediately, with no state change,
and consults none of the validation/inventory collaborators (the result is
the same for every environment). -/
theorem commission_conflict_no_state_change (env : ProcEnv)
    (e : CommissionEvent) (s : MgrState) (d : String)
    (h : s.activeJob = some d) :
    process env e s = some ([], s, some (ProcError.conflict (errActiveJob d))) ∧
    (∀ env2, process env2 e s = process env e s) := by
  constructor
  · simp [process, checkAndSetActiveJob, h]
  · intro env2
    simp [process, checkAndSetActiveJob, h]

theorem commission_conflict_no_state_change_witness :
    process envEx eventEx sBusyEx = some ([], sBusyEx,
      some (ProcError.conflict (errActiveJob "commissionEvent: [n3]"))) :=
  (commission_conflict_no_state_change envEx eventEx sBusyEx
    "commissionEvent: [n3]" rfl).1

/-- C2: the master scan of `prepareInventory` walks every node known to the
manager except the event's own nodes, treats a predicate error or a false
answer as a non-match, and yields the management address and tag of the
first node satisfying both predicates (or `("", "", false)` when none does);
those two values become the master-address and master-name host variables of
every host configuration `prepareInventory` builds. -/
theorem commission_master_scan_first_match (mgr : Manager)
    (e : CommissionEvent) (enodes : List (String × ClusterNode)) :
    (scanForMaster mgr enodes mgr.nodes =
      match mgr.nodes.find? (masterMatch mgr enodes) with
      | none => ("", "", false)
      | some p => (p.2.monMgmtAddress, p.2.cfg.getTag, true)) ∧
    (∀ p, mgr.nodes.find? (masterMatch mgr enodes) = some p →
      ∀ hosts, prepareInventory mgr e enodes = PrepResult.ok hosts →
        ∀ h ∈ hosts,
          lookupAssoc h.hostVars ansibleEtcdMasterAddrHostVar =
            some p.2.monMgmtAddress ∧
          lookupAssoc h.hostVars ansibleEtcdMasterNameHostVar =
            some p.2.cfg.getTag) := by
  refine ⟨scanForMaster_eq_find mgr enodes mgr.nodes, ?_⟩
  intro p hp hosts hok h hmem
  obtain ⟨-, hb⟩ := (prepareInventory_ok_iff mgr e enodes hosts).mp hok
  have hscan := scanForMaster_eq_find mgr enodes mgr.nodes
  rw [hp] at hscan
  have hmm := buildHosts_mem _ _ _ enodes hosts hb h hmem
  rw [hscan] at hmm
  exact ⟨hmm.2.1, hmm.2.2⟩

theorem commission_master_scan_first_match_witness :
    lookupAssoc workerHost1Ex.hostVars ansibleEtcdMasterAddrHostVar =
        some "10.0.0.5" ∧
    lookupAssoc workerHost1Ex.hostVars ansibleEtcdMasterNameHostVar =
        some "master-1" := by
  have h := (commission_master_scan_first_match mgrEx eventEx enodesEx).2
    ("m1", { monMgmtAddress := "10.0.0.5", cfg := NodeCfg.ansible masterHostEx })
    rfl hostsEx rfl workerHost1Ex (by simp [hostsEx])
  exact h

/-- C7: every host configuration built by `prepareInventory` carries exactly
the requested host group and the master-address and master-name variables
obtained from the topology scan. -/
theorem commission_hostconfigs_carry_master_vars (mgr : Manager)
    (e : CommissionEvent) (enodes : List (String × ClusterNode))
    (hosts : List AnsibleHost)
    (hok : prepareInventory mgr e enodes = PrepResult.ok hosts) :
    ∀ h ∈ hosts, h.group = e.hostGroup ∧
      lookupAssoc h.hostVars ansibleEtcdMasterAddrHostVar =
        some (scanForMaster mgr enodes mgr.nodes).1 ∧
      lookupAssoc h.hostVars ansibleEtcdMasterNameHostVar =
        some (scanForMaster mgr enodes mgr.nodes).2.1 := by
  obtain ⟨-, hb⟩ := (prepareInventory_ok_iff mgr e enodes hosts).mp hok
  exact buildHosts_mem _ _ _ enodes hosts hb

theorem commission_hostconfigs_carry_master_vars_witness :
    workerHost2Ex.group = ansibleWorkerGroupName ∧
    lookupAssoc workerHost2Ex.hostVars ansibleEtcdMasterAddrHostVar =
        some "10.0.0.5" ∧
    lookupAssoc workerHost2Ex.hostVars ansibleEtcdMasterNameHostVar =
        some "master-1" := by
  have h := commission_hostconfigs_carry_master_vars mgrEx eventEx enodesEx
    hostsEx rfl workerHost2Ex (by simp [hostsEx])
  exact h

/-- C9: past the topology check, `prepareInventory` recovers each resolved
node's configuration record by an unchecked dynamic type assertion: if any
resolved node's record is not a concrete `AnsibleHost`, it panics rather
than returning an error, and if every record is an `AnsibleHost` it returns
the built host list. -/
theorem commission_type_assertion_panics (mgr : Manager)
    (e : CommissionEvent) (enodes : List (String × ClusterNode))
    (hpass : ¬((scanForMaster mgr enodes mgr.nodes).2.2 = false ∧
        e.hostGroup = ansibleWorkerGroupName)) :
    ((∃ p ∈ enodes, ∀ ah, p.2.cfg ≠ NodeCfg.ansible ah) →
      prepareInventory mgr e enodes = PrepResult.panicked) ∧
    ((∀ p ∈ enodes, ∃ ah, p.2.cfg = NodeCfg.ansible ah) →
      ∃ hosts, prepareInventory mgr e enodes = PrepResult.ok hosts) := by
  constructor
  · intro hbad
    have hb := buildHosts_none_of_bad e.hostGroup
      (scanForMaster mgr enodes mgr.nodes).1
      (scanForMaster mgr enodes mgr.nodes).2.1 enodes hbad
    simp only [prepareInventory, if_neg hpass, hb]
  · intro hall
    obtain ⟨hs, hhs⟩ := buildHosts_isSome_of_ansible e.hostGroup
      (scanForMaster mgr enodes mgr.nodes).1
      (scanForMaster mgr enodes mgr.nodes).2.1 enodes hall
    exact ⟨hs, (prepareInventory_ok_iff mgr e enodes hs).mpr ⟨hpass, hhs⟩⟩

theorem commission_type_assertion_panics_witness :
    prepareInventory mgrEmpty eventBadEx enodesBadEx = PrepResult.panicked := by
  have h := (commission_type_assertion_panics mgrEmpty eventBadEx enodesBadEx
    (by decide)).1
  exact h ⟨("b1", badNodeEx), by simp [enodesBadEx],
    fun ah hh => by simp [badNodeEx] at hh⟩

/-- C10: when the scan finds no existing commissioned master and the
requested group is the master group, the master-address and master-name
variables are still set on every built host configuration, with the empty
string as their value. -/
theorem commission_empty_master_vars_still_set (mgr : Manager)
    (e : CommissionEvent) (enodes : List (String × ClusterNode))
    (hnom : (scanForMaster mgr enodes mgr.nodes).2.2 = false)
    (hgrp : e.hostGroup = ansibleMasterGroupName)
    (hall : ∀ p ∈ enodes, ∃ ah, p.2.cfg = NodeCfg.ansible ah) :
    ∃ hosts, prepareInventory mgr e enodes = PrepResult.ok hosts ∧
      ∀ h ∈ hosts,
        lookupAssoc h.hostVars ansibleEtcdMasterAddrHostVar = some "" ∧
        lookupAssoc h.hostVars ansibleEtcdMasterNameHostVar = some "" := by
  have hpass : ¬((scanForMaster mgr enodes mgr.nodes).2.2 = false ∧
      e.hostGroup = ansibleWorkerGroupName) := by
    rintro ⟨-, hw⟩
    rw [hgrp] at hw
    exact absurd hw (by decide)
  obtain ⟨hs, hhs⟩ := buildHosts_isSome_of_ansible e.hostGroup
    (scanForMaster mgr enodes mgr.nodes).1
    (scanForMaster mgr enodes mgr.nodes).2.1 enodes hall
  refine ⟨hs, (prepareInventory_ok_iff mgr e enodes hs).mpr ⟨hpass, hhs⟩, ?_⟩
  have hscan := scanForMaster_not_found mgr enodes mgr.nodes hnom
  have hm := buildHosts_mem _ _ _ enodes hs hhs
  rw [hscan] at hm
  intro h hmem
  exact ⟨(hm h hmem).2.1, (hm h hmem).2.2⟩

theorem commission_empty_master_vars_still_set_witness :
    lookupAssoc masterHostResEx.hostVars ansibleEtcdMasterAddrHostVar =
        some "" ∧
    lookupAssoc masterHostResEx.hostVars ansibleEtcdMasterNameHostVar =
        some "" := by
  obtain ⟨hosts, hok, hvars⟩ := commission_empty_master_vars_still_set
    mgrEmpty eventMEx enodesMEx rfl rfl
    (fun p hp => by
      simp [enodesMEx] at hp
      exact ⟨n1HostEx, by rw [hp]⟩)
  have hcomp : prepareInventory mgrEmpty eventMEx enodesMEx =
      PrepResult.ok [masterHostResEx] := rfl
  rw [hcomp] at hok
  injection hok with hok
  rw [← hok] at hvars
  exact hvars masterHostResEx (by simp)

/-- C3: when the topology scan finds no existing commissioned master, a
worker-group request makes `process` fail with the topology error and leave
every asset status unchanged (the provisioning transition never appears in
the trace), while a master-group request passes `prepareInventory`'s
topology check. -/
theorem commission_topology_guard (env : ProcEnv) (e : CommissionEvent)
    (s : MgrState) (enodes : List (String × ClusterNode))
    (hfree : s.activeJob = none)
    (hval : eventValidate env e = Except.ok enodes)
    (hnom : (scanForMaster env.mgr enodes env.mgr.nodes).2.2 = false) :
    (e.hostGroup = ansibleWorkerGroupName →
      process env e s = some
        ([ProcEvent.gateAcquired, ProcEvent.validated, ProcEvent.gateReset],
          { activeJob := none, assets := s.assets },
          some (ProcError.topology workerNoMasterMsg)) ∧
      ProcEvent.provisioningSet ∉
        [ProcEvent.gateAcquired, ProcEvent.validated, ProcEvent.gateReset]) ∧
    (e.hostGroup = ansibleMasterGroupName →
      ∀ m, prepareInventory env.mgr e enodes ≠ PrepResult.err m) := by
  constructor
  · intro hw
    have hp : prepareInventory env.mgr e enodes =
        PrepResult.err workerNoMasterMsg := by
      simp only [prepareInventory, if_pos (And.intro hnom hw)]
    refine ⟨?_, by decide⟩
    simp [process, checkAndSetActiveJob, resetActiveJob, hfree, hval, hp]
  · intro hm m
    have hcond : ¬((scanForMaster env.mgr enodes env.mgr.nodes).2.2 = false ∧
        e.hostGroup = ansibleWorkerGroupName) := by
      rintro ⟨-, hw⟩
      rw [hm] at hw
      exact absurd hw (by decide)
    simp only [prepareInventory, if_neg hcond]
    cases hb : buildHosts e.hostGroup (scanForMaster env.mgr enodes env.mgr.nodes).1
        (scanForMaster env.mgr enodes env.mgr.nodes).2.1 enodes <;> simp

theorem commission_topology_guard_witness :
    process envNoMasterEx eventEx sIdleEx = some
      ([ProcEvent.gateAcquired, ProcEvent.validated, ProcEvent.gateReset],
        { activeJob := none, assets := sIdleEx.assets },
        some (ProcError.topology workerNoMasterMsg)) :=
  ((commission_topology_guard envNoMasterEx eventEx sIdleEx enodesEx
    rfl rfl rfl).1 rfl).1

/-- C5: the completion callback registered with the active-job gate performs
a best-effort transition of the target node names to Unallocated when the
job status is Errored and to Commissioned otherwise; a node whose per-node
transition succeeds ends in the corresponding status regardless of failures
on other nodes, and a node whose transition fails keeps its previous status
— no error is propagated. -/
theorem commission_completion_callback_best_effort (canSet : String → Bool)
    (nodeNames : List String) (status : JobStatus)
    (assets : List (String × AssetStatus)) :
    (status = JobStatus.errored →
      commissionCompletionCallback canSet nodeNames status assets =
        setAssetsStatusBestEffort canSet assets nodeNames
          AssetStatus.unallocated) ∧
    (status ≠ JobStatus.errored →
      commissionCompletionCallback canSet nodeNames status assets =
        setAssetsStatusBestEffort canSet assets nodeNames
          AssetStatus.commissioned) ∧
    (∀ n ∈ nodeNames, canSet n = true →
      lookupAssoc (commissionCompletionCallback canSet nodeNames status assets)
          n =
        some (if status = JobStatus.errored then AssetStatus.unallocated
          else AssetStatus.commissioned)) ∧
    (∀ n, canSet n = false →
      lookupAssoc (commissionCompletionCallback canSet nodeNames status assets)
          n = lookupAssoc assets n) := by
  refine ⟨fun h => by simp [commissionCompletionCallback, h],
    fun h => by simp [commissionCompletionCallback, h], ?_, ?_⟩
  · intro n hmem hcan
    by_cases h : status = JobStatus.errored
    · simp only [commissionCompletionCallback, if_pos h]
      exact setAssetsStatusBestEffort_sets _ _ _ _ _ hmem hcan
    · simp only [commissionCompletionCallback, if_neg h]
      exact setAssetsStatusBestEffort_sets _ _ _ _ _ hmem hcan
  · intro n hcan
    unfold commissionCompletionCallback
    by_cases h : status = JobStatus.errored
    · rw [if_pos h]
      exact setAssetsStatusBestEffort_skip _ _ _ _ _ hcan
    · rw [if_neg h]
      exact setAssetsStatusBestEffort_skip _ _ _ _ _ hcan

theorem commission_completion_callback_best_effort_witness :
    lookupAssoc (commissionCompletionCallback canSetEx ["n1", "n2"]
        JobStatus.errored [("n1", AssetStatus.provisioning),
          ("n2", AssetStatus.provisioning)]) "n1" =
      some AssetStatus.unallocated ∧
    lookupAssoc (commissionCompletionCallback canSetEx ["n1", "n2"]
        JobStatus.errored [("n1", AssetStatus.provisioning),
          ("n2", AssetStatus.provisioning)]) "n2" =
      some AssetStatus.provisioning := by
  have h := commission_completion_callback_best_effort canSetEx ["n1", "n2"]
    JobStatus.errored
    [("n1", AssetStatus.provisioning), ("n2", AssetStatus.provisioning)]
  constructor
  · have h1 := h.2.2.1 "n1" (by simp) (by decide)
    simpa using h1
  · have h2 := h.2.2.2 "n2" (by decide)
    exact h2.trans rfl

/-- C6: every error `process` returns after the active-job gate has been
acquired leaves the gate reset (the deferred rollback ran before the
return), the background task is never launched, and the error returned is
exactly the one produced by the failing step (validation, topology, or the
atomic provisioning transition). -/
theorem commission_error_resets_gate (env : ProcEnv) (e : CommissionEvent)
    (s : MgrState) (hfree : s.activeJob = none)
    (tr : List ProcEvent) (s2 : MgrState) (err : ProcError)
    (hrun : process env e s = some (tr, s2, some err)) :
    s2.activeJob = none ∧ ProcEvent.gateReset ∈ tr ∧
    ProcEvent.taskLaunched ∉ tr ∧ s2.assets = s.assets ∧
    (∀ m, err = ProcError.validation m →
      eventValidate env e = Except.error m) ∧
    (∀ m, err = ProcError.topology m → ∃ enodes,
      eventValidate env e = Except.ok enodes ∧
      prepareInventory env.mgr e enodes = PrepResult.err m) ∧
    (∀ m, err = ProcError.statusTransition m →
      setAssetsStatusAtomicProvisioning s.assets e.nodeNames =
        Except.error m) := by
  rcases process_run_cases env e s hfree with
    ⟨m, hv, hp⟩ | ⟨enodes, m, hv, hpr, hp⟩ |
    ⟨enodes, hosts, m, hv, hpr, ha, hp⟩ |
    ⟨enodes, hosts, assets1, hv, hpr, ha, hp⟩ | ⟨enodes, hv, hpr, hp⟩
  · rw [hp] at hrun
    simp only [Option.some.injEq, Prod.mk.injEq] at hrun
    obtain ⟨htr, hs2, herr⟩ := hrun
    subst htr
    subst hs2
    subst herr
    refine ⟨rfl, by simp, by simp, rfl, ?_, ?_, ?_⟩
    · intro m2 hm2
      injection hm2 with hm2
      subst hm2
      exact hv
    · intro m2 hm2
      exact ProcError.noConfusion hm2
    · intro m2 hm2
      exact ProcError.noConfusion hm2
  · rw [hp] at hrun
    simp only [Option.some.injEq, Prod.mk.injEq] at hrun
    obtain ⟨htr, hs2, herr⟩ := hrun
    subst htr
    subst hs2
    subst herr
    refine ⟨rfl, by simp, by simp, rfl, ?_, ?_, ?_⟩
    · intro m2 hm2
      exact ProcError.noConfusion hm2
    · intro m2 hm2
      injection hm2 with hm2
      subst hm2
      exact ⟨enodes, hv, hpr⟩
    · intro m2 hm2
      exact ProcError.noConfusion hm2
  · rw [hp] at hrun
    simp only [Option.some.injEq, Prod.mk.injEq] at hrun
    obtain ⟨htr, hs2, herr⟩ := hrun
    subst htr
    subst hs2
    subst herr
    refine ⟨rfl, by simp, by simp, rfl, ?_, ?_, ?_⟩
    · intro m2 hm2
      exact ProcError.noConfusion hm2
    · intro m2 hm2
      exact ProcError.noConfusion hm2
    · intro m2 hm2
      injection hm2 with hm2
      subst hm2
      exact ha
  · rw [hp] at hrun
    simp only [Option.some.injEq, Prod.mk.injEq] at hrun
    exact absurd hrun.2.2 (by simp)
  · rw [hp] at hrun
    exact Option.noConfusion hrun

theorem commission_error_resets_gate_witness :
    (MgrState.mk none sIdleEx.assets).activeJob = none ∧
    ProcEvent.gateReset ∈
      [ProcEvent.gateAcquired, ProcEvent.validated, ProcEvent.gateReset] := by
  have h := commission_error_resets_gate envNoMasterEx eventEx sIdleEx rfl
    [ProcEvent.gateAcquired, ProcEvent.validated, ProcEvent.gateReset]
    (MgrState.mk none sIdleEx.assets)
    (ProcError.topology workerNoMasterMsg) rfl
  exact ⟨h.1, h.2.1⟩

/-- C8: in every non-panicking run of `process`, the background task is
launched exactly when the run succeeds; on success the trace performs the
atomic Provisioning transition strictly before the launch, the new state
already carries the transitioned assets, and nil is returned without
waiting for the engine. -/
theorem commission_provisioning_before_launch (env : ProcEnv)
    (e : CommissionEvent) (s : MgrState) (tr : List ProcEvent)
    (s2 : MgrState) (res : Option ProcError)
    (hrun : process env e s = some (tr, s2, res)) :
    ((ProcEvent.taskLaunched ∈ tr) ↔ res = none) ∧
    (res = none →
      tr = [ProcEvent.gateAcquired, ProcEvent.validated,
        ProcEvent.inventoryPrepared, ProcEvent.provisioningSet,
        ProcEvent.taskLaunched] ∧
      setAssetsStatusAtomicProvisioning s.assets e.nodeNames =
        Except.ok s2.assets) := by
  cases haj : s.activeJob with
  | some d =>
    have hb := (commission_conflict_no_state_change env e s d haj).1
    rw [hb] at hrun
    simp only [Option.some.injEq, Prod.mk.injEq] at hrun
    obtain ⟨htr, hs2, hres⟩ := hrun
    subst htr
    subst hs2
    constructor
    · rw [← hres]
      simp
    · intro hnone
      rw [hnone] at hres
      exact Option.noConfusion hres
  | none =>
    rcases process_run_cases env e s haj with
      ⟨m, hv, hp⟩ | ⟨enodes, m, hv, hpr, hp⟩ |
      ⟨enodes, hosts, m, hv, hpr, ha, hp⟩ |
      ⟨enodes, hosts, assets1, hv, hpr, ha, hp⟩ | ⟨enodes, hv, hpr, hp⟩
    · rw [hp] at hrun
      simp only [Option.some.injEq, Prod.mk.injEq] at hrun
      obtain ⟨htr, hs2, hres⟩ := hrun
      subst htr
      subst hs2
      constructor
      · rw [← hres]
        simp
      · intro hnone
        rw [hnone] at hres
        exact Option.noConfusion hres
    · rw [hp] at hrun
      simp only [Option.some.injEq, Prod.mk.injEq] at hrun
      obtain ⟨htr, hs2, hres⟩ := hrun
      subst htr
      subst hs2
      constructor
      · rw [← hres]
        simp
      · intro hnone
        rw [hnone] at hres
        exact Option.noConfusion hres
    · rw [hp] at hrun
      simp only [Option.some.injEq, Prod.mk.injEq] at hrun
      obtain ⟨htr, hs2, hres⟩ := hrun
      subst htr
      subst hs2
      constructor
      · rw [← hres]
        simp
      · intro hnone
        rw [hnone] at hres
        exact Option.noConfusion hres
    · rw [hp] at hrun
      simp only [Option.some.injEq, Prod.mk.injEq] at hrun
      obtain ⟨htr, hs2, hres⟩ := hrun
      subst htr
      subst hs2
      rw [← hres]
      exact ⟨by simp, fun _ => ⟨rfl, ha⟩⟩
    · rw [hp] at hrun
      exact Option.noConfusion hrun

theorem commission_provisioning_before_launch_witness :
    setAssetsStatusAtomicProvisioning sM1Ex.assets eventMEx.nodeNames =
      Except.ok [("n1", AssetStatus.provisioning)] := by
  have h := commission_provisioning_before_launch envMEx eventMEx sM1Ex
    [ProcEvent.gateAcquired, ProcEvent.validated,
      ProcEvent.inventoryPrepared, ProcEvent.provisioningSet,
      ProcEvent.taskLaunched]
    (MgrState.mk (some (commissionEventString eventMEx))
      [("n1", AssetStatus.provisioning)]) none rfl
  exact (h.2 rfl).2

end Cluster
